import Mathlib

/-!
Verification of the ComfyUI-Trellis job-client specification against the
repository's code.  Paths are modelled as lists of characters; the viewer
id-extraction functions are shallow embeddings of the JavaScript regex logic
in the repository, and the job-client operations (validator, orchestrator,
session registry, connection manager, artifact store) are modelled from the
specification because their Python implementation is not among the files
under consideration.
-/

namespace Trellis

/-! ### Character classes used by the viewer id-extraction regexes -/

/-- Case-insensitive hexadecimal digit: the class [0-9a-f] under the /i flag. -/
def isHexCI (c : Char) : Bool :=
  ('0' ≤ c && c ≤ '9') || ('a' ≤ c && c ≤ 'f') || ('A' ≤ c && c ≤ 'F')

/-- Character admitted by the class [a-f0-9-] of getFileId
    (lowercase hexadecimal digit or dash). -/
def isHexDash (c : Char) : Bool :=
  ('0' ≤ c && c ≤ '9') || ('a' ≤ c && c ≤ 'f') || c == '-'

/-! ### The UUID pattern

The viewers all try the fixed-length pattern
/([0-9a-f]\x7b8\x7d-[0-9a-f]\x7b4\x7d-[0-9a-f]\x7b4\x7d-[0-9a-f]\x7b4\x7d-[0-9a-f]\x7b12\x7d)/i
first.  A match is 36 characters: dashes at offsets 8, 13, 18 and 23,
case-insensitive hex digits everywhere else.  JavaScript String.match with an
unanchored regex returns the leftmost match. -/

/-- Does the 36-character UUID shape hold of u exactly? -/
def uuidShaped (u : List Char) : Bool :=
  u.length == 36 &&
  (List.range 36).all (fun i =>
    if i == 8 || i == 13 || i == 18 || i == 23 then u.getD i ' ' == '-'
    else isHexCI (u.getD i ' '))

/-- Leftmost match of the UUID pattern inside a path, as JS String.match
    computes it for this fixed-length pattern. -/
def findUUID : List Char → Option (List Char)
  | [] => none
  | c :: cs =>
    if uuidShaped ((c :: cs).take 36) then some ((c :: cs).take 36)
    else findUUID cs

/-! ### Path helpers shared by the extractors -/

/-- The substring after the last slash: path.split('/').pop() in JS. -/
def lastComponent (cs : List Char) : List Char :=
  (cs.reverse.takeWhile (fun c => !(c == '/'))).reverse

/-- JS String.replace with a plain-string pattern replaces only the first
    occurrence; with an empty replacement it drops that occurrence. -/
def dropFirstOcc (needle : List Char) : List Char → List Char
  | [] => []
  | c :: cs =>
    if needle.isPrefixOf (c :: cs) then (c :: cs).drop needle.length
    else c :: dropFirstOcc needle cs

/-! ### The viewer id-extraction functions (embedded from the source) -/

/-- Embeds the id recovery of the first onExecuted handler in
    src/unnamed/part_001: filename = glb_path.split('/').pop();
    sessionId = filename.replace('_output.glb', '').  The extension argument
    covers the video variant, which replaces '_output.mp4'. -/
def replaceExtract (ext : List Char) (path : List Char) : List Char :=
  dropFirstOcc (('_' :: "output.".toList) ++ ext) (lastComponent path)

/-- Embeds the id recovery of the onExecuted handlers in src/unnamed/part_002:
    filename = pathParts[pathParts.length - 1]; modelId = filename.split("_")[0]. -/
def splitExtract (path : List Char) : List Char :=
  (lastComponent path).takeWhile (fun c => !(c == '_'))

/-- Embeds getFileId of src/web/js/trellis-viewer.js line 959:
    path.match(/([a-f0-9-]+)_output\.[^.]+$/), returning the capture group.
    Because the extension [^.]+$ is a nonempty dot-free suffix, the literal
    "_output." must sit immediately before it, and the greedy leftmost capture
    is the maximal [a-f0-9-] run immediately preceding that literal. -/
def getFileId (path : List Char) : Option (List Char) :=
  let r := path.reverse
  let ext := r.takeWhile (fun c => !(c == '.'))
  if ext.isEmpty then none
  else
    let r2 := r.drop ext.length
    if (".tuptuo_".toList).isPrefixOf r2 then
      let cap := (r2.drop 8).takeWhile isHexDash
      if cap.isEmpty then none else some cap.reverse
    else none

/-- Model-file extensions of the extractId filename pattern: (glb|gltf). -/
def modelExts : List (List Char) := ["glb".toList, "gltf".toList]

/-- Video-file extensions of the extractId filename pattern: (mp4|webm|mov). -/
def videoExts : List (List Char) := ["mp4".toList, "webm".toList, "mov".toList]

/-- The filename pattern ([^\x2f]+)_output\.(e1|e2)$ used as extractId's
    second attempt: the path must end in "_output.<ext>", and the capture is
    the (nonempty) last path component minus that suffix. -/
def filenameCapture (exts : List (List Char)) (path : List Char) : Option (List Char) :=
  let fn := lastComponent path
  match exts.find? (fun e => ((('_' :: "output.".toList) ++ e).isSuffixOf fn)) with
  | some e =>
    let stem := fn.take (fn.length - (('_' :: "output.".toList) ++ e).length)
    if stem.isEmpty then none else some stem
  | none => none

/-- Embeds extractId of src/web/js/trellis-viewer.js line 995 (string input):
    first the UUID pattern, then the filename pattern, else the original path. -/
def extractId (exts : List (List Char)) (path : List Char) : List Char :=
  match findUUID path with
  | some u => u
  | none =>
    match filenameCapture exts path with
    | some stem => stem
    | none => path

/-- Embeds getMediaPath of src/unnamed/part_005 lines 50-82: a complete
    http(s) URL is returned unchanged; otherwise the leftmost UUID substring
    (or, failing that, the whole path) is wrapped into the server route
    /trellis/model/<id>. -/
def getMediaPath (path : List Char) : List Char :=
  if ("http://".toList).isPrefixOf path || ("https://".toList).isPrefixOf path then
    path
  else
    let modelId :=
      match findUUID path with
      | some u => u
      | none => path
    ("/trellis/model/".toList) ++ modelId

/-- Modelled from the spec: the artifact writer (Python node code absent from
    the files under consideration) names a completed Task's outputs
    <task_id>_output.glb and <task_id>_output.mp4 under the download
    directory. -/
def artifactName (taskId : List Char) (ext : List Char) : List Char :=
  taskId ++ ('_' :: "output.".toList) ++ ext

/-! ### The spec-modelled Trellis job client

The Python implementation of the Parameter Validator, Job Orchestrator,
Session Registry, Connection Manager and Artifact Store is not among the
files under consideration; only the configuration file src/unnamed/part_000
(numeric values below), the documented parameter table in
src/installation-guide.md lines 38-44, and the workflow description survive.
The definitions that follow are therefore modelled from the specification's
words, and marked as such. -/

/-- Modelled from the spec: one GenerationRequest parameter set.  Exact
    rationals stand in for the decimal-valued fields, integers for the
    integer-valued ones; the source image is represented by its content
    hash. -/
structure GenerationRequest where
  seed : Int
  sparse_steps : Int
  sparse_cfg_strength : ℚ
  slat_steps : Int
  slat_cfg_strength : ℚ
  simplify : ℚ
  texture_size : Int
  deriving DecidableEq

/-- Every field within its documented inclusive range
    (src/installation-guide.md lines 38-44); texture_size must be one of the
    four enumerated values. -/
def inRange (r : GenerationRequest) : Prop :=
  1 ≤ r.seed ∧ r.seed ≤ 2147483647 ∧
  1 ≤ r.sparse_steps ∧ r.sparse_steps ≤ 50 ∧
  0 ≤ r.sparse_cfg_strength ∧ r.sparse_cfg_strength ≤ 10 ∧
  1 ≤ r.slat_steps ∧ r.slat_steps ≤ 50 ∧
  0 ≤ r.slat_cfg_strength ∧ r.slat_cfg_strength ≤ 10 ∧
  (0.90 : ℚ) ≤ r.simplify ∧ r.simplify ≤ (0.98 : ℚ) ∧
  (r.texture_size = 512 ∨ r.texture_size = 1024 ∨
   r.texture_size = 1536 ∨ r.texture_size = 2048)

instance (r : GenerationRequest) : Decidable (inRange r) := by
  unfold inRange; infer_instance

/-- A rejected parameter, with the offending field named. -/
structure ValidationError where
  field : String
  deriving DecidableEq

/-- Modelled from the spec: validate(request) checks each field against its
    documented inclusive numeric range and rejects any texture_size other
    than the four enumerated values (no rounding).  It is a pure function:
    an out-of-range request fails here, before any network interaction. -/
def validate (r : GenerationRequest) : Except ValidationError GenerationRequest :=
  if ¬(1 ≤ r.seed ∧ r.seed ≤ 2147483647) then .error ⟨"seed"⟩
  else if ¬(1 ≤ r.sparse_steps ∧ r.sparse_steps ≤ 50) then .error ⟨"sparse_steps"⟩
  else if ¬(0 ≤ r.sparse_cfg_strength ∧ r.sparse_cfg_strength ≤ 10) then
    .error ⟨"sparse_cfg_strength"⟩
  else if ¬(1 ≤ r.slat_steps ∧ r.slat_steps ≤ 50) then .error ⟨"slat_steps"⟩
  else if ¬(0 ≤ r.slat_cfg_strength ∧ r.slat_cfg_strength ≤ 10) then
    .error ⟨"slat_cfg_strength"⟩
  else if ¬((0.90 : ℚ) ≤ r.simplify ∧ r.simplify ≤ (0.98 : ℚ)) then .error ⟨"simplify"⟩
  else if ¬(r.texture_size = 512 ∨ r.texture_size = 1024 ∨
            r.texture_size = 1536 ∨ r.texture_size = 2048) then .error ⟨"texture_size"⟩
  else .ok r

/-- The fields a named preset defines, per processing.parameter_presets of
    src/unnamed/part_000: sparse_steps, slat_steps and texture_size. -/
structure Preset where
  sparse_steps : Int
  slat_steps : Int
  texture_size : Int
  deriving DecidableEq

/-- The three named presets of src/unnamed/part_000. -/
inductive PresetName where
  | fast
  | balanced
  | quality
  deriving DecidableEq

/-- Concrete preset values from processing.parameter_presets of
    src/unnamed/part_000. -/
def presetOf : PresetName → Preset
  | .fast => ⟨8, 8, 512⟩
  | .balanced => ⟨12, 12, 1024⟩
  | .quality => ⟨20, 16, 2048⟩

/-- Modelled from the spec: applying a named preset overlays only the fields
    the preset defines, leaving caller-supplied values for the others. -/
def applyPreset (p : Preset) (r : GenerationRequest) : GenerationRequest :=
  { r with
    sparse_steps := p.sparse_steps
    slat_steps := p.slat_steps
    texture_size := p.texture_size }

/-! ### Task state machine and session registry (modelled from the spec) -/

/-- The error kinds of the specification's error-handling design. -/
inductive ErrorKind where
  | connectionError
  | remoteError (msg : String)
  | timeoutError
  | storageError
  deriving DecidableEq

/-- The per-Task states of the specification's state machine. -/
inductive TaskState where
  | pending
  | submitted
  | sparseRunning
  | slatRunning
  | baking
  | downloading
  | complete
  | failed (cause : ErrorKind)
  | cancelled
  deriving DecidableEq

/-- COMPLETE and FAILED are the terminal states. -/
def TaskState.isTerminal : TaskState → Bool
  | .complete => true
  | .failed _ => true
  | _ => false

/-- States prior to DOWNLOADING, from which cancellation is reachable. -/
def priorToDownloading : TaskState → Bool
  | .pending | .submitted | .sparseRunning | .slatRunning | .baking => true
  | _ => false

/-- Post-submission, pre-download states: SUBMITTED or later but not yet
    DOWNLOADING. -/
def postSubmission : TaskState → Bool
  | .submitted | .sparseRunning | .slatRunning | .baking => true
  | _ => false

/-- The named remote pipeline stages carried by progress events. -/
inductive Stage where
  | sparse
  | slat
  | baking
  deriving DecidableEq

/-- The running state a progress event's stage maps to. -/
def stageState : Stage → TaskState
  | .sparse => .sparseRunning
  | .slat => .slatRunning
  | .baking => .baking

/-- The events driving one Task's state machine. -/
inductive Event where
  | ack
  | progress (stage : Stage) (fraction : ℚ)
  | completion (meshRef videoRef : String)
  | downloaded
  | failure (cause : ErrorKind)
  | cancel

/-- Modelled from the spec: the per-Task state machine of section 4.2.
    Terminal states ignore every further event, and a cancelled Task is no
    longer acted upon; FAILED is reachable from any non-terminal state;
    CANCELLED only from states prior to DOWNLOADING. -/
def step (s : TaskState) (e : Event) : TaskState :=
  if s.isTerminal then s
  else if s = .cancelled then s
  else
    match e with
    | .ack => match s with | .pending => .submitted | _ => s
    | .progress stg _ => if postSubmission s then stageState stg else s
    | .completion _ _ => if postSubmission s then .downloading else s
    | .downloaded => match s with | .downloading => .complete | _ => s
    | .failure cause => .failed cause
    | .cancel => if priorToDownloading s then .cancelled else s

/-- Modelled from the spec: the parameter fingerprint — validated parameters
    plus image hash — used to detect duplicate in-flight requests. -/
structure Fingerprint where
  params : GenerationRequest
  imageHash : Nat
  deriving DecidableEq

/-- Modelled from the spec: one Task in flight, as the Session Registry
    indexes it. -/
structure Task where
  id : Nat
  session : Nat
  fingerprint : Fingerprint
  state : TaskState
  progress : ℚ
  meshRef : Option String
  videoRef : Option String
  deriving DecidableEq

/-- Modelled from the spec: the Session Registry's task index for one client,
    with a counter supplying fresh placeholder ids. -/
structure Registry where
  tasks : List Task
  nextId : Nat
  deriving DecidableEq

/-- Is t an in-flight (non-terminal) Task for this session and parameter
    fingerprint? -/
def inFlightFor (s : Nat) (fp : Fingerprint) (t : Task) : Bool :=
  decide (t.session = s) && decide (t.fingerprint = fp) && !t.state.isTerminal

/-- Modelled from the spec: Orchestrator submission dedups by
    (session, fingerprint) — an existing non-terminal Task with the same
    fingerprint is returned unchanged, otherwise a fresh PENDING Task is
    created and indexed. -/
def submit (st : Registry) (s : Nat) (fp : Fingerprint) : Task × Registry :=
  match st.tasks.find? (inFlightFor s fp) with
  | some t => (t, st)
  | none =>
    let t : Task :=
      { id := st.nextId, session := s, fingerprint := fp, state := .pending,
        progress := 0, meshRef := none, videoRef := none }
    (t, { tasks := st.tasks ++ [t], nextId := st.nextId + 1 })

/-- A remote progress event for one Task: a named stage and a progress
    fraction. -/
structure ProgressEvent where
  stage : Stage
  fraction : ℚ

/-- Modelled from the spec: remote progress recording.  An event whose
    fraction is lower than the recorded one is logged and ignored, not
    applied; events for terminal Tasks are ignored. -/
def applyProgress (t : Task) (e : ProgressEvent) : Task :=
  if t.state.isTerminal then t
  else if e.fraction < t.progress then t
  else { t with progress := e.fraction, state := stageState e.stage }

/-- A whole sequence of remote progress events, applied in arrival order. -/
def applyProgressList (t : Task) (es : List ProgressEvent) : Task :=
  es.foldl applyProgress t

/-! ### Connection manager (modelled from the spec) -/

/-- The server configuration surface, values from src/unnamed/part_000. -/
structure ServerConfig where
  timeout_seconds : Nat
  reconnect_attempts : Nat
  reconnect_delay_seconds : Nat
  deriving DecidableEq

/-- The configuration shipped in src/unnamed/part_000. -/
def defaultServerConfig : ServerConfig :=
  { timeout_seconds := 120, reconnect_attempts := 5, reconnect_delay_seconds := 3 }

/-- Modelled from the spec: the per-session connection state — the session
    whose channel is being re-established, the consecutive failed-attempt
    counter, and the registry's tasks. -/
structure ClientState where
  session : Nat
  attempts : Nat
  tasks : List Task
  deriving DecidableEq

/-- Fail one task with ConnectionError if it belongs to the session and is in
    a post-submission, pre-download state. -/
def failOnDisconnect (sess : Nat) (t : Task) : Task :=
  if decide (t.session = sess) && postSubmission t.state then
    { t with state := .failed .connectionError }
  else t

/-- Modelled from the spec: one failed reconnection attempt increments the
    counter; when the configured attempt budget is exhausted, a terminal
    ConnectionError surfaces to every Task of the session currently SUBMITTED
    or later but not yet DOWNLOADING, moving it to FAILED. -/
def onReconnectFailure (cfg : ServerConfig) (st : ClientState) : ClientState :=
  let n := st.attempts + 1
  if cfg.reconnect_attempts ≤ n then
    { st with attempts := n, tasks := st.tasks.map (failOnDisconnect st.session) }
  else
    { st with attempts := n }

/-! ### Artifact store (modelled from the spec) -/

/-- The artifact store's configuration: the total-byte budget
    (storage.max_cache_size_mb of src/unnamed/part_000) and the minimum
    retention floor in seconds. -/
structure StoreConfig where
  budget : Nat
  retentionFloor : Nat
  deriving DecidableEq

/-- One cache entry: artifact id, byte size, last-access time and creation
    time (seconds). -/
structure CacheEntry where
  aid : Nat
  bytes : Nat
  lastAccess : Nat
  createdAt : Nat
  deriving DecidableEq

/-- Total cached bytes. -/
def totalBytes (l : List CacheEntry) : Nat :=
  (l.map (·.bytes)).sum

/-- An entry may be evicted only once its age exceeds the retention floor. -/
def evictable (cfg : StoreConfig) (now : Nat) (e : CacheEntry) : Bool :=
  decide (cfg.retentionFloor < now - e.createdAt)

/-- The entry with the smallest last-access time, i.e. the least-recently
    accessed one. -/
def minByAccess : List CacheEntry → Option CacheEntry
  | [] => none
  | e :: es =>
    match minByAccess es with
    | none => some e
    | some b => if e.lastAccess ≤ b.lastAccess then some e else some b

/-- The eviction victim: the least-recently-accessed entry among those whose
    age exceeds the retention floor. -/
def selectVictim (cfg : StoreConfig) (now : Nat) (l : List CacheEntry) : Option CacheEntry :=
  minByAccess (l.filter (evictable cfg now))

/-- The eviction loop body, with explicit fuel (one unit per removal). -/
def evictGo (cfg : StoreConfig) (now : Nat) : Nat → List CacheEntry → List CacheEntry
  | 0, l => l
  | fuel + 1, l =>
    if totalBytes l ≤ cfg.budget then l
    else
      match selectVictim cfg now l with
      | none => l
      | some v => evictGo cfg now fuel (l.erase v)

/-- Modelled from the spec: while total cached bytes exceed the configured
    budget, remove the least-recently-accessed entry whose age also exceeds
    the minimum retention floor; stop when under budget or when no entry is
    old enough to evict. -/
def evict (cfg : StoreConfig) (now : Nat) (l : List CacheEntry) : List CacheEntry :=
  evictGo cfg now l.length l

/-- Modelled from the spec: materialize records the new artifact's cache
    entry and then runs eviction. -/
def materialize (cfg : StoreConfig) (now : Nat) (store : List CacheEntry)
    (e : CacheEntry) : List CacheEntry :=
  evict cfg now (e :: store)

/-! ### Error propagation (modelled from the spec) -/

/-- Modelled from the spec: a completion event carrying the two result
    references moves a post-submission Task to DOWNLOADING and records the
    references. -/
def onCompletionEvent (t : Task) (mesh video : String) : Task :=
  if postSubmission t.state then
    { t with state := .downloading, meshRef := some mesh, videoRef := some video }
  else t

/-- Modelled from the spec: a StorageError while materializing fails the
    download, but the remote result references are retained un-consumed. -/
def onStorageFailure (t : Task) : Task :=
  if t.state = .downloading then { t with state := .failed .storageError } else t

/-- Modelled from the spec: a caller-initiated retry of a failed download is
    possible exactly when the Task failed on storage and both remote result
    references are still known. -/
def retryDownload (t : Task) : Option Task :=
  match t.state, t.meshRef, t.videoRef with
  | .failed .storageError, some _, some _ => some { t with state := .downloading }
  | _, _, _ => none

/-- Look a Task up by id in the registry. -/
def findTask (reg : Registry) (tid : Nat) : Option Task :=
  reg.tasks.find? (fun t => decide (t.id = tid))

/-- Modelled from the spec: an asynchronous error (connection, remote,
    timeout) is delivered by transitioning the affected Task's state to
    FAILED with the cause preserved, observably via the Session Registry. -/
def deliverError (reg : Registry) (tid : Nat) (cause : ErrorKind) : Registry :=
  { reg with
    tasks := reg.tasks.map (fun t =>
      if decide (t.id = tid) && !t.state.isTerminal then
        { t with state := .failed cause }
      else t) }

/-! ## Theorems -/

/-- Shared helper: validate accepts a request exactly when every field is
    within its documented range. -/
theorem validate_ok_iff (r : GenerationRequest) :
    validate r = Except.ok r ↔ inRange r := by
  unfold validate inRange
  split_ifs with h1 h2 h3 h4 h5 h6 h7
  all_goals simp_all

/-- C2: a GenerationRequest with every field inside its documented inclusive
    range (texture_size one of the four enumerated values) validates
    successfully; any request violating a range yields a ValidationError —
    the value is not rounded, and validate is a pure function performing no
    network interaction. -/
theorem validate_ranges (r : GenerationRequest) :
    (inRange r → validate r = Except.ok r) ∧
    (¬ inRange r → ∃ e : ValidationError, validate r = Except.error e) := by
  constructor
  · intro h
    exact (validate_ok_iff r).mpr h
  · intro h
    cases hv : validate r with
    | error e => exact ⟨e, rfl⟩
    | ok a =>
      have ha : a = r := by
        unfold validate at hv
        split_ifs at hv
        all_goals simp_all
      rw [ha] at hv
      exact absurd ((validate_ok_iff r).mp hv) h

/-- Witness for C2: the configuration's default parameters validate, and the
    spec's texture_size 999 scenario is rejected. -/
theorem validate_ranges_witness :
    validate ⟨1, 12, 7.5, 12, 3, 0.95, 1024⟩ =
      Except.ok ⟨1, 12, 7.5, 12, 3, 0.95, 1024⟩ ∧
    ∃ e : ValidationError,
      validate ⟨1, 12, 7.5, 12, 3, 0.95, 999⟩ = Except.error e :=
  ⟨(validate_ranges _).1 (by norm_num [inRange]),
   (validate_ranges _).2 (by norm_num [inRange])⟩

/-- C8: applying a named preset (fast, balanced, quality) changes only the
    fields the preset defines — sparse_steps, slat_steps, texture_size — and
    leaves every other caller-supplied field unchanged; the merged parameters
    pass through the very same validate range check as un-preset ones. -/
theorem applyPreset_frame (pn : PresetName) (r : GenerationRequest) :
    (applyPreset (presetOf pn) r).seed = r.seed ∧
    (applyPreset (presetOf pn) r).sparse_cfg_strength = r.sparse_cfg_strength ∧
    (applyPreset (presetOf pn) r).slat_cfg_strength = r.slat_cfg_strength ∧
    (applyPreset (presetOf pn) r).simplify = r.simplify ∧
    (applyPreset (presetOf pn) r).sparse_steps = (presetOf pn).sparse_steps ∧
    (applyPreset (presetOf pn) r).slat_steps = (presetOf pn).slat_steps ∧
    (applyPreset (presetOf pn) r).texture_size = (presetOf pn).texture_size ∧
    (validate (applyPreset (presetOf pn) r) = Except.ok (applyPreset (presetOf pn) r) ↔
      inRange (applyPreset (presetOf pn) r)) :=
  ⟨rfl, rfl, rfl, rfl, rfl, rfl, rfl, validate_ok_iff _⟩

/-- Shared helper: one progress event never lowers the recorded fraction. -/
theorem applyProgress_le (t : Task) (e : ProgressEvent) :
    t.progress ≤ (applyProgress t e).progress := by
  unfold applyProgress
  split_ifs with h1 h2
  · exact le_refl _
  · exact le_refl _
  · exact le_of_not_lt h2

/-- C3: over any sequence of remote progress events a Task's stored progress
    fraction is monotonically non-decreasing, and an event carrying a lower
    fraction than the recorded one leaves the Task unchanged (ignored, not
    applied). -/
theorem progress_monotone (t : Task) (es : List ProgressEvent) (e : ProgressEvent) :
    t.progress ≤ (applyProgressList t es).progress ∧
    (e.fraction < t.progress → applyProgress t e = t) ∧
    t.progress ≤ (applyProgress t e).progress := by
  refine ⟨?_, ?_, applyProgress_le t e⟩
  · unfold applyProgressList
    induction es generalizing t with
    | nil => exact le_refl _
    | cons x xs ih =>
      exact le_trans (applyProgress_le t x) (ih (applyProgress t x))
  · intro h
    unfold applyProgress
    split_ifs
    · rfl
    · rfl

/-- Witness for C3: a regressing fraction (1/4 after 1/2) is ignored on a
    concrete running Task. -/
theorem progress_monotone_witness :
    ((1 : ℚ) / 4 < (1 : ℚ) / 2) ∧
    applyProgress
      { id := 7, session := 0,
        fingerprint := { params := ⟨1, 12, 7.5, 12, 3, 0.95, 1024⟩, imageHash := 42 },
        state := .sparseRunning, progress := 1 / 2, meshRef := none, videoRef := none }
      { stage := .sparse, fraction := 1 / 4 } =
      { id := 7, session := 0,
        fingerprint := { params := ⟨1, 12, 7.5, 12, 3, 0.95, 1024⟩, imageHash := 42 },
        state := .sparseRunning, progress := 1 / 2, meshRef := none, videoRef := none } :=
  ⟨by norm_num, (progress_monotone _ [] _).2.1 (by norm_num)⟩

/-- Shared helper: terminal states absorb every single event. -/
theorem step_terminal (s : TaskState) (e : Event) (h : s.isTerminal = true) :
    step s e = s := by
  unfold step
  simp [h]

/-- C5: once a Task is terminal (COMPLETE or FAILED) no sequence of further
    events changes its state, and CANCELLED is only ever entered from a state
    prior to DOWNLOADING — never from DOWNLOADING, COMPLETE or FAILED. -/
theorem terminal_absorbing_cancel_scope (es : List Event) (s : TaskState) (e : Event) :
    (s.isTerminal = true → List.foldl step s es = s) ∧
    (step s e = .cancelled → priorToDownloading s = true ∨ s = .cancelled) ∧
    ((s = .downloading ∨ s.isTerminal = true) → step s e ≠ .cancelled) := by
  refine ⟨?_, ?_, ?_⟩
  · intro h
    induction es with
    | nil => rfl
    | cons x xs ih => rw [List.foldl_cons, step_terminal s x h]; exact ih
  · intro h
    cases s with
    | pending => exact Or.inl rfl
    | submitted => exact Or.inl rfl
    | sparseRunning => exact Or.inl rfl
    | slatRunning => exact Or.inl rfl
    | baking => exact Or.inl rfl
    | cancelled => exact Or.inr rfl
    | downloading =>
      exfalso
      cases e <;>
        simp [step, TaskState.isTerminal, postSubmission, priorToDownloading] at h
    | complete =>
      exfalso
      simp [step, TaskState.isTerminal] at h
    | failed c =>
      exfalso
      simp [step, TaskState.isTerminal] at h
  · intro hs h
    cases hs with
    | inl hd =>
      subst hd
      cases e <;>
        simp [step, TaskState.isTerminal, postSubmission, priorToDownloading] at h
    | inr hterm =>
      rw [step_terminal s e hterm] at h
      subst h
      simp [TaskState.isTerminal] at hterm

/-- Witness for C5: a COMPLETE Task absorbs a cancel-then-downloaded event
    sequence, and cancelling during DOWNLOADING does not reach CANCELLED. -/
theorem terminal_absorbing_cancel_scope_witness :
    TaskState.isTerminal .complete = true ∧
    List.foldl step .complete [Event.cancel, Event.downloaded] = .complete ∧
    step .downloading Event.cancel ≠ .cancelled :=
  ⟨rfl,
   (terminal_absorbing_cancel_scope [Event.cancel, Event.downloaded] .complete
      Event.cancel).1 rfl,
   (terminal_absorbing_cancel_scope [] .downloading Event.cancel).2.2 (Or.inl rfl)⟩

/-- C1: while a Task for the same (session, parameter-fingerprint) pair is
    non-terminal, submitting an identical request returns that existing Task
    — same Task id, registry unchanged, no new Task created — and a repeated
    submission yields the same Task again. -/
theorem submit_dedup (st : Registry) (s : Nat) (fp : Fingerprint)
    (h : ∃ t ∈ st.tasks, inFlightFor s fp t = true) :
    (submit st s fp).2 = st ∧
    (submit st s fp).1 ∈ st.tasks ∧
    inFlightFor s fp (submit st s fp).1 = true ∧
    (submit (submit st s fp).2 s fp).1 = (submit st s fp).1 := by
  have hsome : (st.tasks.find? (inFlightFor s fp)).isSome := by
    rw [List.find?_isSome]
    obtain ⟨t, ht, hp⟩ := h
    exact ⟨t, ht, hp⟩
  obtain ⟨u, hu⟩ := Option.isSome_iff_exists.mp hsome
  have hsub : submit st s fp = (u, st) := by
    unfold submit
    rw [hu]
  rw [hsub]
  exact ⟨rfl, List.mem_of_find?_eq_some hu, List.find?_some hu, by rw [hsub]⟩

/-- Witness for C1: a registry holding one SUBMITTED task for the default
    parameters dedups a second identical submission. -/
theorem submit_dedup_witness :
    (⟨7, 0, ⟨⟨1, 12, 7.5, 12, 3, 0.95, 1024⟩, 42⟩, .submitted, 0, none, none⟩ : Task) ∈
      (⟨[⟨7, 0, ⟨⟨1, 12, 7.5, 12, 3, 0.95, 1024⟩, 42⟩, .submitted, 0, none, none⟩], 8⟩ :
        Registry).tasks ∧
    inFlightFor 0 ⟨⟨1, 12, 7.5, 12, 3, 0.95, 1024⟩, 42⟩
      ⟨7, 0, ⟨⟨1, 12, 7.5, 12, 3, 0.95, 1024⟩, 42⟩, .submitted, 0, none, none⟩ = true ∧
    (submit ⟨[⟨7, 0, ⟨⟨1, 12, 7.5, 12, 3, 0.95, 1024⟩, 42⟩, .submitted, 0, none, none⟩], 8⟩
        0 ⟨⟨1, 12, 7.5, 12, 3, 0.95, 1024⟩, 42⟩).2 =
      ⟨[⟨7, 0, ⟨⟨1, 12, 7.5, 12, 3, 0.95, 1024⟩, 42⟩, .submitted, 0, none, none⟩], 8⟩ :=
  ⟨by simp, by simp [inFlightFor, TaskState.isTerminal],
   (submit_dedup ⟨[⟨7, 0, ⟨⟨1, 12, 7.5, 12, 3, 0.95, 1024⟩, 42⟩, .submitted, 0, none, none⟩], 8⟩
      0 ⟨⟨1, 12, 7.5, 12, 3, 0.95, 1024⟩, 42⟩
      ⟨⟨7, 0, ⟨⟨1, 12, 7.5, 12, 3, 0.95, 1024⟩, 42⟩, .submitted, 0, none, none⟩,
        by simp, by simp [inFlightFor, TaskState.isTerminal]⟩).1⟩

/-- Shared helper: find? commutes with a map that preserves the predicate. -/
theorem find?_map_pres (p : Task → Bool) (f : Task → Task)
    (hf : ∀ x, p (f x) = p x) :
    ∀ (l : List Task) (t : Task), l.find? p = some t → (l.map f).find? p = some (f t) := by
  intro l
  induction l with
  | nil => intro t h; simp at h
  | cons x xs ih =>
    intro t h
    by_cases hx : p x = true
    · rw [List.find?_cons_of_pos _ hx] at h
      injection h with h
      subst h
      rw [List.map_cons, List.find?_cons_of_pos _ (by rw [hf]; exact hx)]
    · rw [List.find?_cons_of_neg _ (by simp [hx])] at h
      rw [List.map_cons, List.find?_cons_of_neg _ (by simp [hf, hx])]
      exact ih t h

/-- C9: a StorageError during artifact materialization fails the download but
    keeps both remote result references un-consumed, so a caller-initiated
    retry is possible; and an asynchronous error of any kind is observable —
    it surfaces as a FAILED transition of the affected Task, visible through
    the Session Registry lookup (no silent failure path). -/
theorem storage_error_retry (t : Task) (m v : String) (reg : Registry) (tid : Nat)
    (u : Task) (cause : ErrorKind) :
    (t.state = .downloading → t.meshRef = some m → t.videoRef = some v →
      (onStorageFailure t).meshRef = some m ∧
      (onStorageFailure t).videoRef = some v ∧
      (onStorageFailure t).state = .failed .storageError ∧
      retryDownload (onStorageFailure t) = some { t with state := .downloading }) ∧
    (findTask reg tid = some u → u.state.isTerminal = false →
      findTask (deliverError reg tid cause) tid =
        some { u with state := .failed cause }) := by
  constructor
  · intro hs hm hv
    have hfail : onStorageFailure t = { t with state := .failed .storageError } := by
      unfold onStorageFailure
      rw [if_pos hs]
    rw [hfail]
    refine ⟨hm, hv, rfl, ?_⟩
    simp [retryDownload, hm, hv]
  · intro hfind hterm
    have hfind' : reg.tasks.find? (fun x : Task => decide (x.id = tid)) = some u := hfind
    have hp : decide (u.id = tid) = true := by
      simpa using List.find?_some hfind'
    have hmap :
        ((reg.tasks.map (fun x =>
            if decide (x.id = tid) && !x.state.isTerminal then
              { x with state := TaskState.failed cause }
            else x)).find? (fun x : Task => decide (x.id = tid))) =
          some (if decide (u.id = tid) && !u.state.isTerminal then
              { u with state := TaskState.failed cause }
            else u) := by
      refine find?_map_pres _ _ ?_ reg.tasks u hfind
      intro x
      cases hx : (decide (x.id = tid) && !x.state.isTerminal) <;> simp [hx]
    unfold findTask deliverError
    rw [hmap, hp, hterm]
    rfl

/-- Witness for C9: a concrete DOWNLOADING Task whose materialization fails
    keeps its references and can retry; a RemoteError delivery is visible in
    the registry. -/
theorem storage_error_retry_witness :
    ((⟨3, 0, ⟨⟨1, 12, 7.5, 12, 3, 0.95, 1024⟩, 42⟩, .downloading, 1,
        some "m.glb", some "v.mp4"⟩ : Task).state = .downloading) ∧
    retryDownload (onStorageFailure
      ⟨3, 0, ⟨⟨1, 12, 7.5, 12, 3, 0.95, 1024⟩, 42⟩, .downloading, 1,
        some "m.glb", some "v.mp4"⟩) =
      some ⟨3, 0, ⟨⟨1, 12, 7.5, 12, 3, 0.95, 1024⟩, 42⟩, .downloading, 1,
        some "m.glb", some "v.mp4"⟩ ∧
    findTask (deliverError
      ⟨[⟨3, 0, ⟨⟨1, 12, 7.5, 12, 3, 0.95, 1024⟩, 42⟩, .submitted, 0, none, none⟩], 4⟩
      3 (.remoteError "boom")) 3 =
      some ⟨3, 0, ⟨⟨1, 12, 7.5, 12, 3, 0.95, 1024⟩, 42⟩,
        .failed (.remoteError "boom"), 0, none, none⟩ :=
  ⟨rfl,
   (storage_error_retry
      ⟨3, 0, ⟨⟨1, 12, 7.5, 12, 3, 0.95, 1024⟩, 42⟩, .downloading, 1,
        some "m.glb", some "v.mp4"⟩ "m.glb" "v.mp4" ⟨[], 0⟩ 0
      ⟨0, 0, ⟨⟨1, 12, 7.5, 12, 3, 0.95, 1024⟩, 42⟩, .pending, 0, none, none⟩
      .storageError).1 rfl rfl rfl |>.2.2.2,
   (storage_error_retry
      ⟨0, 0, ⟨⟨1, 12, 7.5, 12, 3, 0.95, 1024⟩, 42⟩, .pending, 0, none, none⟩ "" ""
      ⟨[⟨3, 0, ⟨⟨1, 12, 7.5, 12, 3, 0.95, 1024⟩, 42⟩, .submitted, 0, none, none⟩], 4⟩
      3
      ⟨3, 0, ⟨⟨1, 12, 7.5, 12, 3, 0.95, 1024⟩, 42⟩, .submitted, 0, none, none⟩
      (.remoteError "boom")).2
     (by simp [findTask]) rfl⟩

/-- Shared helper: while the attempt budget is not yet exhausted, a failed
    reconnection attempt only increments the counter, leaving every task
    untouched. -/
theorem onReconnectFailure_below (cfg : ServerConfig) :
    ∀ (k : Nat) (st : ClientState), st.attempts + k < cfg.reconnect_attempts →
      (onReconnectFailure cfg)^[k] st = { st with attempts := st.attempts + k } := by
  intro k
  induction k with
  | zero =>
    intro st _
    simp
  | succ n ih =>
    intro st h
    rw [Function.iterate_succ_apply]
    have hstep : onReconnectFailure cfg st = { st with attempts := st.attempts + 1 } := by
      unfold onReconnectFailure
      rw [if_neg (by omega)]
    rw [hstep, ih { st with attempts := st.attempts + 1 } (by simp; omega)]
    have harith : st.attempts + 1 + n = st.attempts + (n + 1) := by omega
    simp [harith]

/-- C4: starting from a zero failure counter, reconnect_attempts consecutive
    failed reconnection attempts fail every Task of the session in a
    post-submission, pre-download state (SUBMITTED or later, not yet
    DOWNLOADING) with a ConnectionError cause. -/
theorem reconnect_exhaustion (cfg : ServerConfig) (st : ClientState)
    (h0 : st.attempts = 0) (hN : 0 < cfg.reconnect_attempts) :
    ((onReconnectFailure cfg)^[cfg.reconnect_attempts] st).tasks =
      st.tasks.map (failOnDisconnect st.session) ∧
    ∀ t ∈ st.tasks, t.session = st.session → postSubmission t.state = true →
      { t with state := .failed .connectionError } ∈
        ((onReconnectFailure cfg)^[cfg.reconnect_attempts] st).tasks := by
  obtain ⟨N, hNe⟩ : ∃ n, cfg.reconnect_attempts = n + 1 :=
    ⟨cfg.reconnect_attempts - 1, by omega⟩
  have hfinal : ((onReconnectFailure cfg)^[cfg.reconnect_attempts] st).tasks =
      st.tasks.map (failOnDisconnect st.session) := by
    rw [hNe, Function.iterate_succ_apply',
      onReconnectFailure_below cfg N st (by omega)]
    unfold onReconnectFailure
    rw [if_pos (show cfg.reconnect_attempts ≤ st.attempts + N + 1 by omega)]
  refine ⟨hfinal, ?_⟩
  intro t ht hses hpost
  rw [hfinal]
  have hft : failOnDisconnect st.session t = { t with state := .failed .connectionError } := by
    unfold failOnDisconnect
    rw [if_pos (by simp [hses, hpost])]
  rw [← hft]
  exact List.mem_map_of_mem _ ht

/-- Witness for C4: with the shipped configuration (5 attempts), exhausting
    reconnection fails a concrete SUBMITTED task with ConnectionError. -/
theorem reconnect_exhaustion_witness :
    ((⟨0, 0,
        [⟨9, 0, ⟨⟨1, 12, 7.5, 12, 3, 0.95, 1024⟩, 42⟩, .submitted, 0, none, none⟩]⟩ :
          ClientState).attempts = 0) ∧
    (⟨9, 0, ⟨⟨1, 12, 7.5, 12, 3, 0.95, 1024⟩, 42⟩,
        .failed .connectionError, 0, none, none⟩ : Task) ∈
      ((onReconnectFailure defaultServerConfig)^[defaultServerConfig.reconnect_attempts]
        ⟨0, 0,
          [⟨9, 0, ⟨⟨1, 12, 7.5, 12, 3, 0.95, 1024⟩, 42⟩, .submitted, 0, none, none⟩]⟩).tasks :=
  ⟨rfl,
   (reconnect_exhaustion defaultServerConfig
      ⟨0, 0, [⟨9, 0, ⟨⟨1, 12, 7.5, 12, 3, 0.95, 1024⟩, 42⟩, .submitted, 0, none, none⟩]⟩
      rfl (by norm_num [defaultServerConfig])).2
     ⟨9, 0, ⟨⟨1, 12, 7.5, 12, 3, 0.95, 1024⟩, 42⟩, .submitted, 0, none, none⟩
     (by simp) rfl rfl⟩

/-- Shared helper: the minimum-access entry is drawn from the list. -/
theorem minByAccess_mem : ∀ {l : List CacheEntry} {m : CacheEntry},
    minByAccess l = some m → m ∈ l := by
  intro l
  induction l with
  | nil => intro m h; simp [minByAccess] at h
  | cons x xs ih =>
    intro m h
    cases hxs : minByAccess xs with
    | none =>
      simp only [minByAccess, hxs] at h
      injection h with h
      exact h ▸ List.mem_cons_self x xs
    | some b =>
      simp only [minByAccess, hxs] at h
      split_ifs at h with hle
      · injection h with h
        exact h ▸ List.mem_cons_self x xs
      · injection h with h
        exact h ▸ List.mem_cons_of_mem x (ih hxs)

/-- Shared helper: a list with no minimum-access entry is empty. -/
theorem minByAccess_eq_none : ∀ {l : List CacheEntry},
    minByAccess l = none → l = [] := by
  intro l
  cases l with
  | nil => intro _; rfl
  | cons x xs =>
    intro h
    cases hxs : minByAccess xs with
    | none =>
      simp only [minByAccess, hxs] at h
      cases h
    | some b =>
      simp only [minByAccess, hxs] at h
      split_ifs at h

/-- Shared helper: the minimum-access entry has the least last-access time. -/
theorem minByAccess_le : ∀ {l : List CacheEntry} {m : CacheEntry},
    minByAccess l = some m → ∀ e ∈ l, m.lastAccess ≤ e.lastAccess := by
  intro l
  induction l with
  | nil => intro m h; simp [minByAccess] at h
  | cons x xs ih =>
    intro m h e he
    cases hxs : minByAccess xs with
    | none =>
      simp only [minByAccess, hxs] at h
      injection h with h
      subst h
      rcases List.mem_cons.mp he with rfl | hmem
      · exact le_refl _
      · rw [minByAccess_eq_none hxs] at hmem
        cases hmem
    | some b =>
      simp only [minByAccess, hxs] at h
      split_ifs at h with hle
      · injection h with h
        subst h
        rcases List.mem_cons.mp he with rfl | hmem
        · exact le_refl _
        · exact le_trans hle (ih hxs e hmem)
      · injection h with h
        subst h
        rcases List.mem_cons.mp he with rfl | hmem
        · exact le_of_not_le hle
        · exact ih hxs e hmem

/-- Shared helper: a selected eviction victim is an old-enough entry of the
    cache with the least last-access time among old-enough entries. -/
theorem selectVictim_spec (cfg : StoreConfig) (now : Nat) (l : List CacheEntry)
    (v : CacheEntry) (h : selectVictim cfg now l = some v) :
    v ∈ l ∧ evictable cfg now v = true ∧
    ∀ e ∈ l, evictable cfg now e = true → v.lastAccess ≤ e.lastAccess := by
  unfold selectVictim at h
  have hv := minByAccess_mem h
  rw [List.mem_filter] at hv
  refine ⟨hv.1, hv.2, ?_⟩
  intro e he heb
  exact minByAccess_le h e (List.mem_filter.mpr ⟨he, heb⟩)

/-- Shared helper: if no victim is selectable, every entry is younger than
    the retention floor. -/
theorem selectVictim_none (cfg : StoreConfig) (now : Nat) (l : List CacheEntry)
    (h : selectVictim cfg now l = none) :
    ∀ e ∈ l, evictable cfg now e = false := by
  intro e he
  unfold selectVictim at h
  have := minByAccess_eq_none h
  by_cases hb : evictable cfg now e = true
  · exact absurd (this ▸ List.mem_filter.mpr ⟨he, hb⟩) (List.not_mem_nil e)
  · exact Bool.eq_false_iff.mpr (fun hc => hb hc)

/-- Shared helper: the eviction loop only removes entries. -/
theorem evictGo_subset (cfg : StoreConfig) (now : Nat) :
    ∀ (fuel : Nat) (l : List CacheEntry), evictGo cfg now fuel l ⊆ l := by
  intro fuel
  induction fuel with
  | zero => intro l; exact fun _ h => h
  | succ n ih =>
    intro l
    unfold evictGo
    split_ifs with hb
    · exact fun _ h => h
    · cases hv : selectVictim cfg now l with
      | none => exact fun _ h => h
      | some v => exact fun x hx => List.erase_subset _ _ (ih (l.erase v) hx)

/-- Shared helper: the eviction loop never removes an entry younger than the
    retention floor. -/
theorem evictGo_keeps_young (cfg : StoreConfig) (now : Nat) :
    ∀ (fuel : Nat) (l : List CacheEntry) (e : CacheEntry), e ∈ l →
      evictable cfg now e = false → e ∈ evictGo cfg now fuel l := by
  intro fuel
  induction fuel with
  | zero => intro l e he _; exact he
  | succ n ih =>
    intro l e he hy
    unfold evictGo
    split_ifs with hb
    · exact he
    · cases hv : selectVictim cfg now l with
      | none => exact he
      | some v =>
        refine ih (l.erase v) e ?_ hy
        have hvv := (selectVictim_spec cfg now l v hv).2.1
        refine (List.mem_erase_of_ne ?_).mpr he
        intro hev
        rw [hev] at hy
        rw [hvv] at hy
        cases hy

/-- Shared helper: with enough fuel the eviction loop stops only under
    budget or with nothing old enough left to evict. -/
theorem evictGo_post (cfg : StoreConfig) (now : Nat) :
    ∀ (fuel : Nat) (l : List CacheEntry), l.length ≤ fuel →
      totalBytes (evictGo cfg now fuel l) ≤ cfg.budget ∨
      ∀ e ∈ evictGo cfg now fuel l, evictable cfg now e = false := by
  intro fuel
  induction fuel with
  | zero =>
    intro l hl
    have : l = [] := List.eq_nil_of_length_eq_zero (Nat.le_zero.mp hl)
    subst this
    left
    simp [evictGo, totalBytes]
  | succ n ih =>
    intro l hl
    unfold evictGo
    split_ifs with hb
    · exact Or.inl hb
    · cases hv : selectVictim cfg now l with
      | none => exact Or.inr (selectVictim_none cfg now l hv)
      | some v =>
        refine ih (l.erase v) ?_
        have hvm := (selectVictim_spec cfg now l v hv).1
        rw [List.length_erase_of_mem hvm]
        have : 1 ≤ l.length := List.length_pos.mpr (List.ne_nil_of_mem hvm)
        omega

/-- C6: after every materialize call, eviction removes only
    least-recently-accessed entries older than the retention floor, until the
    cache is under the byte budget or only entries younger than the floor
    remain; an entry younger than the retention floor is never evicted, even
    while the cache stays over budget. -/
theorem materialize_eviction (cfg : StoreConfig) (now : Nat)
    (store : List CacheEntry) (e : CacheEntry) (l : List CacheEntry) (v : CacheEntry) :
    (totalBytes (materialize cfg now store e) ≤ cfg.budget ∨
      ∀ x ∈ materialize cfg now store e, evictable cfg now x = false) ∧
    (∀ x ∈ e :: store, evictable cfg now x = false → x ∈ materialize cfg now store e) ∧
    materialize cfg now store e ⊆ e :: store ∧
    (selectVictim cfg now l = some v →
      v ∈ l ∧ evictable cfg now v = true ∧
      ∀ x ∈ l, evictable cfg now x = true → v.lastAccess ≤ x.lastAccess) := by
  refine ⟨?_, ?_, ?_, fun h => selectVictim_spec cfg now l v h⟩
  · exact evictGo_post cfg now (e :: store).length (e :: store) (le_refl _)
  · intro x hx hy
    exact evictGo_keeps_young cfg now (e :: store).length (e :: store) x hx hy
  · exact evictGo_subset cfg now (e :: store).length (e :: store)

/-- Witness for C6: materializing a 30-byte artifact into a cache holding an
    old 60-byte entry and a 2-second-old 50-byte entry under a 100-byte
    budget with a 5-second retention floor evicts exactly the old entry: the
    cache drops under budget and the young entry survives. -/
theorem materialize_eviction_witness :
    evictable ⟨100, 5⟩ 100 ⟨2, 50, 99, 98⟩ = false ∧
    (⟨2, 50, 99, 98⟩ : CacheEntry) ∈
      materialize ⟨100, 5⟩ 100 [⟨1, 60, 1, 0⟩, ⟨2, 50, 99, 98⟩] ⟨3, 30, 100, 100⟩ ∧
    totalBytes
      (materialize ⟨100, 5⟩ 100 [⟨1, 60, 1, 0⟩, ⟨2, 50, 99, 98⟩] ⟨3, 30, 100, 100⟩) ≤ 100 ∧
    selectVictim ⟨100, 5⟩ 100
        [⟨3, 30, 100, 100⟩, ⟨1, 60, 1, 0⟩, ⟨2, 50, 99, 98⟩] = some ⟨1, 60, 1, 0⟩ ∧
    evictable ⟨100, 5⟩ 100 (⟨1, 60, 1, 0⟩ : CacheEntry) = true :=
  ⟨by decide,
   (materialize_eviction ⟨100, 5⟩ 100 [⟨1, 60, 1, 0⟩, ⟨2, 50, 99, 98⟩] ⟨3, 30, 100, 100⟩
      [] ⟨0, 0, 0, 0⟩).2.1 ⟨2, 50, 99, 98⟩ (by simp) (by decide),
   by decide,
   by decide,
   ((materialize_eviction ⟨100, 5⟩ 100 [⟨1, 60, 1, 0⟩, ⟨2, 50, 99, 98⟩] ⟨3, 30, 100, 100⟩
      [⟨3, 30, 100, 100⟩, ⟨1, 60, 1, 0⟩, ⟨2, 50, 99, 98⟩] ⟨1, 60, 1, 0⟩).2.2.2
      (by decide)).2.1⟩

/-- Shared helper: a successful findUUID returns a UUID-shaped substring of
    the path. -/
theorem findUUID_spec : ∀ {path u : List Char}, findUUID path = some u →
    uuidShaped u = true ∧ ∃ s t, path = s ++ u ++ t := by
  intro path
  induction path with
  | nil => intro u h; simp [findUUID] at h
  | cons c cs ih =>
    intro u h
    unfold findUUID at h
    split_ifs at h with hu
    · injection h with h
      subst h
      exact ⟨hu, [], (c :: cs).drop 36, by simp [List.take_append_drop]⟩
    · obtain ⟨hsh, s, t, hst⟩ := ih h
      exact ⟨hsh, c :: s, t, by rw [hst]; rfl⟩

/-- C10 (amended): whenever a path contains a UUID-shaped substring, the
    extractId functions return the leftmost such substring, in precedence
    over the filename rule; getMediaPath routes to that substring as well,
    except for paths already beginning with http:// or https://, which it
    returns unchanged. -/
theorem extractId_uuid_precedence (path u : List Char) (h : findUUID path = some u) :
    uuidShaped u = true ∧
    (∃ s t, path = s ++ u ++ t) ∧
    extractId modelExts path = u ∧
    extractId videoExts path = u ∧
    (("http://".toList).isPrefixOf path = false →
      ("https://".toList).isPrefixOf path = false →
      getMediaPath path = ("/trellis/model/".toList) ++ u) := by
  obtain ⟨hsh, hinf⟩ := findUUID_spec h
  refine ⟨hsh, hinf, ?_, ?_, ?_⟩
  · unfold extractId
    rw [h]
  · unfold extractId
    rw [h]
  · intro h1 h2
    unfold getMediaPath
    rw [if_neg (by rw [h1, h2]; simp), h]

/-- Counterexample for C10 as stated: getMediaPath — one of the extraction
    functions the claim covers — returns a complete http URL unchanged even
    though the path contains a UUID-shaped substring, instead of reducing it
    to that substring. -/
theorem getMediaPath_http_counterexample :
    (findUUID ("http://h/aaaaaaaa-aaaa-aaaa-aaaa-aaaaaaaaaaaa_output.glb".toList)).isSome =
      true ∧
    getMediaPath ("http://h/aaaaaaaa-aaaa-aaaa-aaaa-aaaaaaaaaaaa_output.glb".toList) =
      "http://h/aaaaaaaa-aaaa-aaaa-aaaa-aaaaaaaaaaaa_output.glb".toList ∧
    getMediaPath ("http://h/aaaaaaaa-aaaa-aaaa-aaaa-aaaaaaaaaaaa_output.glb".toList) ≠
      ("/trellis/model/aaaaaaaa-aaaa-aaaa-aaaa-aaaaaaaaaaaa".toList) :=
  ⟨by decide, by decide, by decide⟩

/-- Witness for C10: a non-URL path whose filename stem is not itself a UUID
    but contains one is reduced to that UUID by extractId and getMediaPath. -/
theorem extractId_uuid_precedence_witness :
    findUUID ("t/aaaaaaaa-aaaa-aaaa-aaaa-aaaaaaaaaaaa_output.glb".toList) =
      some ("aaaaaaaa-aaaa-aaaa-aaaa-aaaaaaaaaaaa".toList) ∧
    extractId modelExts ("t/aaaaaaaa-aaaa-aaaa-aaaa-aaaaaaaaaaaa_output.glb".toList) =
      "aaaaaaaa-aaaa-aaaa-aaaa-aaaaaaaaaaaa".toList ∧
    getMediaPath ("t/aaaaaaaa-aaaa-aaaa-aaaa-aaaaaaaaaaaa_output.glb".toList) =
      ("/trellis/model/aaaaaaaa-aaaa-aaaa-aaaa-aaaaaaaaaaaa".toList) :=
  ⟨by decide,
   (extractId_uuid_precedence ("t/aaaaaaaa-aaaa-aaaa-aaaa-aaaaaaaaaaaa_output.glb".toList)
      ("aaaaaaaa-aaaa-aaaa-aaaa-aaaaaaaaaaaa".toList) (by decide)).2.2.1,
   (extractId_uuid_precedence ("t/aaaaaaaa-aaaa-aaaa-aaaa-aaaaaaaaaaaa_output.glb".toList)
      ("aaaaaaaa-aaaa-aaaa-aaaa-aaaaaaaaaaaa".toList) (by decide)).2.2.2.2
     (by decide) (by decide)⟩

/-- Shared helper: takeWhile consumes an all-satisfying block up to the first
    failing character. -/
theorem takeWhile_all_append (p : Char → Bool) (l1 : List Char) (c : Char)
    (l2 : List Char) (h1 : ∀ x ∈ l1, p x = true) (hc : p c = false) :
    (l1 ++ c :: l2).takeWhile p = l1 := by
  induction l1 with
  | nil => simp [List.takeWhile_cons, hc]
  | cons a as ih =>
    have ha : p a = true := h1 a (List.mem_cons_self a as)
    rw [List.cons_append, List.takeWhile_cons, if_pos ha,
      ih (fun x hx => h1 x (List.mem_cons_of_mem a hx))]

/-- Shared helper: a character of the getFileId class differs from any
    character outside it. -/
theorem isHexDash_ne (c d : Char) (h : isHexDash c = true) (hd : isHexDash d = false) :
    (c == d) = false := by
  cases hbe : (c == d) with
  | false => rfl
  | true =>
    have : c = d := by simpa using hbe
    rw [this] at h
    rw [h] at hd
    cases hd

/-- Shared helper: the component after the last slash of dir/<fname> is fname
    whenever fname is slash-free. -/
theorem lastComponent_append (dir fname : List Char)
    (hf : ∀ c ∈ fname, (c == '/') = false) :
    lastComponent (dir ++ '/' :: fname) = fname := by
  unfold lastComponent
  rw [List.reverse_append, List.reverse_cons, List.append_assoc,
    List.singleton_append,
    takeWhile_all_append _ fname.reverse '/' dir.reverse
      (fun x hx => by
        have := hf x (List.mem_reverse.mp hx)
        simp [this])
      (by decide),
    List.reverse_reverse]

/-- Shared helper: dropping the first occurrence of a needle that starts with
    a character absent from the id strips the needle suffix exactly. -/
theorem dropFirstOcc_no_early (c0 : Char) (nrest : List Char) :
    ∀ (id : List Char), (∀ c ∈ id, (c == c0) = false) →
      dropFirstOcc (c0 :: nrest) (id ++ c0 :: nrest) = id := by
  intro id
  induction id with
  | nil =>
    intro _
    rw [List.nil_append]
    simp only [dropFirstOcc]
    rw [if_pos (List.isPrefixOf_iff_prefix.mpr (List.prefix_refl _))]
    exact List.drop_length _
  | cons a as ih =>
    intro h
    have ha : (a == c0) = false := h a (List.mem_cons_self a as)
    rw [List.cons_append]
    simp only [dropFirstOcc]
    rw [if_neg (by
      have hne : a ≠ c0 := by simpa using ha
      simp [List.isPrefixOf]
      intro he
      exact absurd he.symm hne)]
    rw [ih (fun c hc => h c (List.mem_cons_of_mem a hc))]


/-- Shared helper: an artifact file name contains no slash when its id is in
    the hex/dash class and its extension is slash-free. -/
theorem artifact_no_slash (id ext : List Char)
    (hid : ∀ c ∈ id, isHexDash c = true)
    (hext : ∀ c ∈ ext, (c == '/') = false) :
    ∀ c ∈ artifactName id ext, (c == '/') = false := by
  intro c hc
  unfold artifactName at hc
  rcases List.mem_append.mp hc with h1 | h2
  · rcases List.mem_append.mp h1 with ha | hb
    · exact isHexDash_ne c '/' (hid c ha) (by decide)
    · have hlits : ∀ x ∈ ('_' :: "output.".toList), (x == '/') = false := by decide
      exact hlits c hb
  · exact hext c h2

/-- Shared helper: the split-at-underscore extraction recovers an id with no
    underscore from the artifact naming scheme. -/
theorem splitExtract_artifact (dir id ext : List Char)
    (hid : ∀ c ∈ id, isHexDash c = true)
    (hext : ∀ c ∈ ext, (c == '/') = false) :
    splitExtract (dir ++ '/' :: artifactName id ext) = id := by
  unfold splitExtract
  rw [lastComponent_append dir _ (artifact_no_slash id ext hid hext)]
  have harr : artifactName id ext = id ++ '_' :: ("output.".toList ++ ext) := by
    simp [artifactName]
  rw [harr]
  exact takeWhile_all_append _ id '_' _
    (fun x hx => by simp [isHexDash_ne x '_' (hid x hx) (by decide)])
    (by decide)

/-- Shared helper: the replace-first-occurrence extraction recovers an id
    with no underscore from the artifact naming scheme. -/
theorem replaceExtract_artifact (dir id ext : List Char)
    (hid : ∀ c ∈ id, isHexDash c = true)
    (hext : ∀ c ∈ ext, (c == '/') = false) :
    replaceExtract ext (dir ++ '/' :: artifactName id ext) = id := by
  unfold replaceExtract
  rw [lastComponent_append dir _ (artifact_no_slash id ext hid hext)]
  have harr : artifactName id ext = id ++ '_' :: ("output.".toList ++ ext) := by
    simp [artifactName]
  have hneedle : ('_' :: "output.".toList) ++ ext = '_' :: ("output.".toList ++ ext) := by
    simp
  rw [harr, hneedle]
  exact dropFirstOcc_no_early '_' _ id
    (fun c hc => isHexDash_ne c '_' (hid c hc) (by decide))

/-- Shared helper: getFileId recovers a lowercase-hex/dash id from the
    artifact naming scheme, for any dot-free nonempty extension. -/
theorem getFileId_artifact (dir id ext : List Char)
    (hne : id ≠ [])
    (hid : ∀ c ∈ id, isHexDash c = true)
    (hextne : ext ≠ [])
    (hextdot : ∀ c ∈ ext, (c == '.') = false) :
    getFileId (dir ++ '/' :: artifactName id ext) = some id := by
  have hout : ('_' :: "output.".toList) = ['_','o','u','t','p','u','t','.'] := rfl
  have htup : ".tuptuo_".toList = ['.', 't', 'u', 'p', 't', 'u', 'o', '_'] := rfl
  have hA : (dir ++ '/' :: artifactName id ext).reverse
      = ext.reverse ++ '.' ::
          (['t','u','p','t','u','o','_'] ++ (id.reverse ++ '/' :: dir.reverse)) := by
    unfold artifactName
    rw [hout]
    simp [List.reverse_append, List.append_assoc]
  have hexts : ∀ x ∈ ext.reverse, (fun c => !(c == '.')) x = true := by
    intro x hx
    have := hextdot x (List.mem_reverse.mp hx)
    simp [this]
  have hids : ∀ x ∈ id.reverse, isHexDash x = true := by
    intro x hx
    exact hid x (List.mem_reverse.mp hx)
  have hrevne : ext.reverse ≠ [] := by simpa using hextne
  have hidrevne : id.reverse ≠ [] := by simpa using hne
  simp only [getFileId]
  rw [hA, takeWhile_all_append (fun c => !(c == '.')) ext.reverse '.' _ hexts (by decide)]
  rw [if_neg (by simp [hrevne])]
  rw [List.drop_left]
  rw [htup]
  rw [if_pos (by simp [List.isPrefixOf])]
  have hdrop8 : ('.' ::
      (['t','u','p','t','u','o','_'] ++ (id.reverse ++ '/' :: dir.reverse))).drop 8
      = id.reverse ++ '/' :: dir.reverse := by simp
  rw [hdrop8, takeWhile_all_append isHexDash id.reverse '/' dir.reverse hids (by decide)]
  rw [if_neg (by simp [hidrevne])]
  rw [List.reverse_reverse]

/-- C7 (amended): for every nonempty task id drawn from lowercase hex digits
    and hyphens — in particular every server-assigned UUID — the artifact
    files are named <task_id>_output.glb and <task_id>_output.mp4 under the
    download directory, and each of the three viewer id-extraction rules
    (split at the first underscore, replace the first '_output.<ext>'
    occurrence, and the getFileId regex) maps such a file path back to the
    original task id. -/
theorem artifact_roundtrip (dir id : List Char) (hne : id ≠ [])
    (hid : ∀ c ∈ id, isHexDash c = true) :
    splitExtract (dir ++ '/' :: artifactName id ("glb".toList)) = id ∧
    splitExtract (dir ++ '/' :: artifactName id ("mp4".toList)) = id ∧
    replaceExtract ("glb".toList) (dir ++ '/' :: artifactName id ("glb".toList)) = id ∧
    replaceExtract ("mp4".toList) (dir ++ '/' :: artifactName id ("mp4".toList)) = id ∧
    getFileId (dir ++ '/' :: artifactName id ("glb".toList)) = some id ∧
    getFileId (dir ++ '/' :: artifactName id ("mp4".toList)) = some id :=
  ⟨splitExtract_artifact dir id _ hid (by decide),
   splitExtract_artifact dir id _ hid (by decide),
   replaceExtract_artifact dir id _ hid (by decide),
   replaceExtract_artifact dir id _ hid (by decide),
   getFileId_artifact dir id _ hne hid (by decide) (by decide),
   getFileId_artifact dir id _ hne hid (by decide) (by decide)⟩

/-- Counterexample for C7 as stated: for the opaque task id "a_b", the
    split-at-underscore viewer extraction applied to the produced artifact
    path returns "a", not the original task id. -/
theorem splitExtract_underscore_counterexample :
    splitExtract (("trellis_downloads".toList) ++ '/' ::
        artifactName ("a_b".toList) ("glb".toList)) = "a".toList ∧
    ("a".toList : List Char) ≠ "a_b".toList :=
  ⟨by decide, by decide⟩

/-- Witness for C7: the UUID id from the repository's own examples
    round-trips through all three extraction rules. -/
theorem artifact_roundtrip_witness :
    ("f5348b34-02fc-41d3-b46c-dab8ce3517b7".toList : List Char) ≠ [] ∧
    splitExtract ("trellis_downloads".toList ++ '/' ::
        artifactName ("f5348b34-02fc-41d3-b46c-dab8ce3517b7".toList) ("glb".toList)) =
      "f5348b34-02fc-41d3-b46c-dab8ce3517b7".toList ∧
    getFileId ("trellis_downloads".toList ++ '/' ::
        artifactName ("f5348b34-02fc-41d3-b46c-dab8ce3517b7".toList) ("mp4".toList)) =
      some ("f5348b34-02fc-41d3-b46c-dab8ce3517b7".toList) :=
  ⟨by decide,
   (artifact_roundtrip ("trellis_downloads".toList)
      ("f5348b34-02fc-41d3-b46c-dab8ce3517b7".toList) (by decide) (by decide)).1,
   (artifact_roundtrip ("trellis_downloads".toList)
      ("f5348b34-02fc-41d3-b46c-dab8ce3517b7".toList) (by decide) (by decide)).2.2.2.2.2⟩

end Trellis
